import Mathlib

/-!
Shallow embedding of the `leptos-md` markdown event renderer
(`src/renderer.rs`, `src/components.rs`) and proofs about it.

The renderer consumes a flat list of parse events (pulldown-cmark style)
and rebuilds a nested markup tree by bracket matching: `find_matching_end`
scans forward tracking nesting depth, and `render_start_tag` renders the
events strictly between a `Start` and its matching `End` as the
container's children.

Rust's `AnyView` output is modelled by the `Node` tree below: `Node.text`
is a plain text view (the empty view `"".into_any()` is `Node.text ""`),
`Node.elem` is an element whose children are escaped views, and
`Node.rawElem` is an element whose `inner_html` attribute is set to a raw,
unescaped string (the only two raw injections in the source are
`<span inner_html=...>` and `<div inner_html=...>`).
-/

namespace LeptosMd

/-- `CodeBlockTheme` from `components.rs` (Rust `#[default]` is `Default`). -/
inductive CodeBlockTheme
  | Default
  | Dark
  | Light
  | GitHub
  | Monokai
deriving DecidableEq, Repr

/-- Rust `CodeBlockTheme::default()` (the `#[default]` variant). -/
def CodeBlockTheme.defaultTheme : CodeBlockTheme := CodeBlockTheme.Default

/-- `CodeBlockKind` from pulldown-cmark, as matched in `renderer.rs`. -/
inductive CodeBlockKind
  | Indented
  | Fenced (lang : String)
deriving DecidableEq, Repr

/-- `HeadingLevel` from pulldown-cmark. -/
inductive HeadingLevel
  | H1 | H2 | H3 | H4 | H5 | H6
deriving DecidableEq, Repr

/-- `Tag` from pulldown-cmark, restricted to the payloads `renderer.rs`
actually reads (fields matched with `..` or `_` in the source are never
inspected and are omitted). -/
inductive Tag
  | Paragraph
  | Heading (level : HeadingLevel)
  | BlockQuote
  | CodeBlock (kind : CodeBlockKind)
  | List (start_number : Option Nat)
  | Item
  | Emphasis
  | Strong
  | Strikethrough
  | Link (dest_url : String) (title : String)
  | Image (dest_url : String) (title : String)
  | Table
  | TableHead
  | TableRow
  | TableCell
  | FootnoteDefinition (label : String)
  | HtmlBlock
  | DefinitionList
  | DefinitionListTitle
  | DefinitionListDefinition
  | Superscript
  | Subscript
  | MetadataBlock
deriving DecidableEq, Repr

/-- `Event` from pulldown-cmark, as matched in `renderer.rs`.
`Event::End(TagEnd)` carries a payload the renderer never inspects
(it is always matched as `End(_)`), so it is omitted here. -/
inductive Event
  | Start (tag : Tag)
  | End
  | Text (s : String)
  | Code (s : String)
  | Html (s : String)
  | SoftBreak
  | HardBreak
  | Rule
  | FootnoteReference (s : String)
  | TaskListMarker (checked : Bool)
  | InlineMath (s : String)
  | DisplayMath (s : String)
  | InlineHtml (s : String)
deriving DecidableEq, Repr

/-- `MarkdownOptions` from `components.rs`. -/
structure MarkdownOptions where
  enable_gfm : Bool
  code_theme : Option CodeBlockTheme
  syntax_highlighting_language_classes : Bool
  open_links_in_new_tab : Bool
  allow_raw_html : Bool
  use_explicit_classes : Bool
deriving DecidableEq, Repr

/-- `impl Default for MarkdownOptions` from `components.rs`. -/
def MarkdownOptions.defaultOptions : MarkdownOptions :=
  { enable_gfm := true
    code_theme := some CodeBlockTheme.defaultTheme
    syntax_highlighting_language_classes := true
    open_links_in_new_tab := true
    allow_raw_html := true
    use_explicit_classes := false }

/-- `MarkdownOptions::new()` from `components.rs` (returns `Self::default()`). -/
def MarkdownOptions.new : MarkdownOptions := MarkdownOptions.defaultOptions

/- The `MarkdownClasses` constants from `components.rs`. -/
namespace MarkdownClasses

def CONTENT : String := "leptos-mdx-content prose prose-gray max-w-none dark:prose-invert"

def H1 : String := "text-3xl font-bold text-gray-900 dark:text-gray-100 mt-6 mb-4 first:mt-0"

def H2 : String := "text-2xl font-semibold text-gray-900 dark:text-gray-100 mt-5 mb-3"

def H3 : String := "text-xl font-semibold text-gray-900 dark:text-gray-100 mt-4 mb-2"

def H4 : String := "text-lg font-medium text-gray-900 dark:text-gray-100 mt-3 mb-2"

def H5 : String := "text-base font-medium text-gray-900 dark:text-gray-100 mt-3 mb-2"

def H6 : String := "text-sm font-medium text-gray-600 dark:text-gray-400 mt-3 mb-2"

def PARAGRAPH : String := "mb-4 leading-relaxed text-gray-700 dark:text-gray-300"

def BLOCKQUOTE : String := "border-l-4 border-blue-500 pl-4 py-2 my-4 bg-blue-50 dark:bg-blue-950/30 text-gray-700 dark:text-gray-300 italic"

def INLINE_CODE : String := "bg-gray-100 dark:bg-gray-800 text-gray-800 dark:text-gray-200 px-1.5 py-0.5 rounded text-sm font-mono"

def CODE_BLOCK : String := "bg-gray-50 dark:bg-gray-900 border border-gray-200 dark:border-gray-700 rounded-lg p-4 my-4 overflow-x-auto"

def CODE_BLOCK_CODE : String := "font-mono text-sm leading-relaxed text-gray-800 dark:text-gray-200"

def UL : String := "list-disc list-inside mb-4 space-y-1 text-gray-700 dark:text-gray-300"

def OL : String := "list-decimal list-inside mb-4 space-y-1 text-gray-700 dark:text-gray-300"

def LI : String := "leading-relaxed"

def LINK : String := "text-blue-600 dark:text-blue-400 hover:text-blue-800 dark:hover:text-blue-300 underline underline-offset-2 hover:underline-offset-4 transition-all"

def IMAGE : String := "max-w-full h-auto rounded-lg shadow-sm my-4"

def TABLE : String := "min-w-full divide-y divide-gray-200 dark:divide-gray-700 my-4 border border-gray-200 dark:border-gray-700 rounded-lg overflow-hidden"

def THEAD : String := "bg-gray-50 dark:bg-gray-800"

def TR : String := "bg-white dark:bg-gray-900 even:bg-gray-50 dark:even:bg-gray-800/50"

def TD : String := "px-6 py-4 text-sm text-gray-900 dark:text-gray-100"

def TH : String := "px-6 py-3 text-left text-xs font-medium text-gray-500 dark:text-gray-400 uppercase tracking-wider"

def HR : String := "border-0 h-px bg-gradient-to-r from-transparent via-gray-300 dark:via-gray-600 to-transparent my-8"

def CHECKBOX : String := "mr-2 accent-blue-600"

def MATH_INLINE : String := "font-serif italic text-gray-800 dark:text-gray-200"

def MATH_DISPLAY : String := "font-serif italic text-center my-4 p-3 bg-gray-50 dark:bg-gray-800 rounded-lg text-gray-800 dark:text-gray-200"

def DL : String := "my-4"

def DT : String := "font-semibold text-gray-900 dark:text-gray-100 mt-4 first:mt-0"

def DD : String := "ml-6 mb-2 text-gray-700 dark:text-gray-300"

def SUP : String := "text-xs align-super"

def SUB : String := "text-xs align-sub"

def EM : String := "italic"

def STRONG : String := "font-bold"

def DEL : String := "line-through text-gray-500 dark:text-gray-400"

def FOOTNOTE_REF : String := "text-xs align-super text-blue-600 dark:text-blue-400 hover:text-blue-800 dark:hover:text-blue-300"

def FOOTNOTE_DEF : String := "text-sm border-t border-gray-200 dark:border-gray-700 mt-8 pt-4 text-gray-600 dark:text-gray-400"

def RAW_HTML_BLOCK : String := "bg-yellow-50 dark:bg-yellow-950/30 border border-yellow-200 dark:border-yellow-800 rounded-lg p-3 my-4 font-mono text-sm text-yellow-800 dark:text-yellow-200 whitespace-pre-wrap"

def INLINE_HTML : String := "bg-yellow-100 dark:bg-yellow-900/50 text-yellow-800 dark:text-yellow-200 px-2 py-1 rounded text-xs font-mono border border-yellow-300 dark:border-yellow-700"

def THEME_DEFAULT : String := "bg-gray-50 dark:bg-gray-900"

def THEME_DARK : String := "bg-gray-900 text-gray-100"

def THEME_LIGHT : String := "bg-white text-gray-900 border"

def THEME_GITHUB : String := "bg-[#f6f8fa] dark:bg-[#0d1117] text-[#24292f] dark:text-[#f0f6fc]"

def THEME_MONOKAI : String := "bg-[#272822] text-[#f8f8f2]"

end MarkdownClasses

/-- `get_code_theme_classes` from `components.rs`. -/
def get_code_theme_classes (theme : CodeBlockTheme) : String :=
  match theme with
  | CodeBlockTheme.Default => MarkdownClasses.THEME_DEFAULT
  | CodeBlockTheme.Dark => MarkdownClasses.THEME_DARK
  | CodeBlockTheme.Light => MarkdownClasses.THEME_LIGHT
  | CodeBlockTheme.GitHub => MarkdownClasses.THEME_GITHUB
  | CodeBlockTheme.Monokai => MarkdownClasses.THEME_MONOKAI

/-- Output markup tree standing for the Rust `AnyView` values built in
`renderer.rs`. `rawElem` is an element whose `inner_html` is set to an
unescaped string; `text` is an escaped text view. -/
inductive Node
  | text (s : String)
  | elem (tag : String) (attrs : List (String × String)) (children : List Node)
  | rawElem (tag : String) (attrs : List (String × String)) (inner_html : String)
deriving Repr

/-- The loop of `find_matching_end` from `renderer.rs`: `i` is the index of
the current event in the original slice, `depth` the current nesting depth.
Rust does `depth -= 1; if depth == 0 { return (i, i + 1); }` on an `End`.
On falling off the end of the slice Rust returns
`(events.len(), events.len())`; since `i` counts every event consumed,
`i` equals the original length at that point. -/
def find_matching_end_go : List Event → Nat → Int → Nat × Nat
  | [], i, _ => (i, i)
  | e :: rest, i, depth =>
    match e with
    | Event.Start _ => find_matching_end_go rest (i + 1) (depth + 1)
    | Event.End =>
        if depth - 1 = 0 then (i, i + 1)
        else find_matching_end_go rest (i + 1) (depth - 1)
    | _ => find_matching_end_go rest (i + 1) depth

/-- `find_matching_end` from `renderer.rs`: returns
`(end_index, consumed)` for the slice beginning at a `Start` event. -/
def find_matching_end (events : List Event) : Nat × Nat :=
  find_matching_end_go events 0 0

/-- `extract_text_content` from `renderer.rs`: keeps only `Text` and
`Code` payloads and joins them with no separator. -/
def extract_text_content (events : List Event) : String :=
  String.join (events.filterMap fun e =>
    match e with
    | Event.Text s => some s
    | Event.Code s => some s
    | _ => none)

mutual

/-- `render_events` from `renderer.rs`: the cursor loop
`while i < events.len() { let (rendered, consumed) = render_event(&events[i..]); i += consumed }`.
Advancing the cursor by `consumed` and re-slicing is dropping
`consumed - 1` events of the tail (`consumed ≥ 1` always holds, see
`render_event_consumes_at_least_one` below). -/
def render_events (opts : MarkdownOptions) : List Event → List Node
  | [] => []
  | e :: rest =>
    let nc := render_event opts e rest
    nc.1 :: render_events opts (rest.drop (nc.2 - 1))
termination_by l => (l.length, 3)
decreasing_by
  all_goals simp_wf
  all_goals try simp only [List.length_drop, List.length_take, List.length_cons]
  all_goals first
    | (apply Prod.Lex.right; omega)
    | (apply Prod.Lex.left; omega)

/-- `render_event` from `renderer.rs`. Rust receives the slice
`events = e :: rest` and matches on `events[0] = e`; the slice is split
into head and tail here (it is only ever called on a non-empty slice). -/
def render_event (opts : MarkdownOptions) (e : Event) (rest : List Event) : Node × Nat :=
  match e with
  | Event.Start tag => render_start_tag opts tag rest
  | Event.End =>
    -- End tags are handled by their corresponding start tags
    (Node.text "", 1)
  | Event.Text t => (Node.text t, 1)
  | Event.Code code =>
    let cls := if opts.use_explicit_classes then MarkdownClasses.INLINE_CODE else "inline-code"
    (Node.elem "code" [("class", cls)] [Node.text code], 1)
  | Event.Html html =>
    -- For safety, the source renders block Html leaves as text unconditionally
    (Node.elem "span" [("class", "raw-html")] [Node.text html], 1)
  | Event.SoftBreak => (Node.elem "span" [] [Node.text " "], 1)
  | Event.HardBreak => (Node.elem "br" [] [], 1)
  | Event.Rule =>
    let cls := if opts.use_explicit_classes then MarkdownClasses.HR else "markdown-hr"
    (Node.elem "hr" [("class", cls)] [], 1)
  | Event.FootnoteReference reference =>
    let cls := if opts.use_explicit_classes then MarkdownClasses.FOOTNOTE_REF else "footnote-ref"
    (Node.elem "sup" [("class", cls)]
      [Node.elem "a" [("href", "#" ++ reference)] [Node.text reference]], 1)
  | Event.TaskListMarker checked =>
    let cls := if opts.use_explicit_classes then MarkdownClasses.CHECKBOX else ""
    (Node.elem "input"
      [("type", "checkbox"), ("class", cls),
       ("checked", if checked then "true" else "false"), ("disabled", "")] [], 1)
  | Event.InlineMath expr =>
    let cls := if opts.use_explicit_classes then MarkdownClasses.MATH_INLINE else "math math-inline"
    (Node.elem "span" [("class", cls)] [Node.text expr], 1)
  | Event.DisplayMath expr =>
    let cls := if opts.use_explicit_classes then MarkdownClasses.MATH_DISPLAY
      else "math math-display"
    (Node.elem "div" [("class", cls)] [Node.text expr], 1)
  | Event.InlineHtml raw =>
    if opts.allow_raw_html then (Node.rawElem "span" [] raw, 1)
    else (Node.text raw, 1)
termination_by (rest.length + 1, 2)
decreasing_by
  all_goals simp_wf
  all_goals try simp only [List.length_drop, List.length_take, List.length_cons]
  all_goals first
    | (apply Prod.Lex.right; omega)
    | (apply Prod.Lex.left; omega)

/-- `render_start_tag` from `renderer.rs`. Rust receives the full slice
`events` (whose head is `Start tag`) together with `tag`; here the head is
reconstructed from `tag` and the tail `rest`. The function is split at the
source's `let inner_events = &events[1..end_index]` line: the per-kind
emission `match tag` that follows it is `render_matched_tag` below. -/
def render_start_tag (opts : MarkdownOptions) (tag : Tag) (rest : List Event) : Node × Nat :=
  let events := Event.Start tag :: rest
  let fm := find_matching_end events
  let inner_events := (events.take fm.1).drop 1
  render_matched_tag opts tag inner_events fm.2
termination_by (rest.length + 1, 1)
decreasing_by
  all_goals simp_wf
  all_goals try simp only [List.length_drop, List.length_take, List.length_cons]
  all_goals first
    | (apply Prod.Lex.right; omega)
    | (apply Prod.Lex.left; omega)

/-- The `match tag` body of `render_start_tag` from `renderer.rs`:
renders one container given the events strictly between its `Start` and
matching `End` (`inner_events`) and the cursor advance `consumed`. -/
def render_matched_tag (opts : MarkdownOptions) (tag : Tag) (inner_events : List Event)
    (consumed : Nat) : Node × Nat :=
  let use_explicit := opts.use_explicit_classes
  match tag with
  | Tag.Paragraph =>
    let inner_content := render_events opts inner_events
    if use_explicit then
      (Node.elem "p" [("class", MarkdownClasses.PARAGRAPH)] inner_content, consumed)
    else
      (Node.elem "p" [] inner_content, consumed)
  | Tag.Heading level =>
    let inner_content := render_events opts inner_events
    if use_explicit then
      match level with
      | HeadingLevel.H1 => (Node.elem "h1" [("class", MarkdownClasses.H1)] inner_content, consumed)
      | HeadingLevel.H2 => (Node.elem "h2" [("class", MarkdownClasses.H2)] inner_content, consumed)
      | HeadingLevel.H3 => (Node.elem "h3" [("class", MarkdownClasses.H3)] inner_content, consumed)
      | HeadingLevel.H4 => (Node.elem "h4" [("class", MarkdownClasses.H4)] inner_content, consumed)
      | HeadingLevel.H5 => (Node.elem "h5" [("class", MarkdownClasses.H5)] inner_content, consumed)
      | HeadingLevel.H6 => (Node.elem "h6" [("class", MarkdownClasses.H6)] inner_content, consumed)
    else
      match level with
      | HeadingLevel.H1 => (Node.elem "h1" [] inner_content, consumed)
      | HeadingLevel.H2 => (Node.elem "h2" [] inner_content, consumed)
      | HeadingLevel.H3 => (Node.elem "h3" [] inner_content, consumed)
      | HeadingLevel.H4 => (Node.elem "h4" [] inner_content, consumed)
      | HeadingLevel.H5 => (Node.elem "h5" [] inner_content, consumed)
      | HeadingLevel.H6 => (Node.elem "h6" [] inner_content, consumed)
  | Tag.BlockQuote =>
    let inner_content := render_events opts inner_events
    let cls := if use_explicit then MarkdownClasses.BLOCKQUOTE else "markdown-blockquote"
    (Node.elem "blockquote" [("class", cls)] inner_content, consumed)
  | Tag.CodeBlock kind =>
    let code_content := extract_text_content inner_events
    let language_class : Option String :=
      if opts.syntax_highlighting_language_classes then
        match kind with
        | CodeBlockKind.Indented => some "language-text"
        | CodeBlockKind.Fenced lang =>
          if lang.isEmpty then some "language-text"
          else some ("language-" ++ lang)
      else
        none
    let theme_classes := opts.code_theme.map fun theme => get_code_theme_classes theme
    let base_pre_class := if use_explicit then MarkdownClasses.CODE_BLOCK
      else "markdown-code-block"
    let combined_class :=
      match language_class, theme_classes with
      | some lang, some theme => base_pre_class ++ " " ++ lang ++ " " ++ theme
      | some lang, none => base_pre_class ++ " " ++ lang
      | none, some theme => base_pre_class ++ " " ++ theme
      | none, none => base_pre_class
    let code_class :=
      if use_explicit then
        match language_class with
        | some lang => MarkdownClasses.CODE_BLOCK_CODE ++ " " ++ lang
        | none => MarkdownClasses.CODE_BLOCK_CODE
      else
        language_class.getD ""
    (Node.elem "pre" [("class", combined_class)]
      [Node.elem "code" [("class", code_class)] [Node.text code_content]], consumed)
  | Tag.List start_number =>
    let inner_content := render_events opts inner_events
    match start_number with
    | some start =>
      if use_explicit then
        (Node.elem "ol" [("class", MarkdownClasses.OL), ("start", toString start)]
          inner_content, consumed)
      else
        (Node.elem "ol" [("start", toString start)] inner_content, consumed)
    | none =>
      if use_explicit then
        (Node.elem "ul" [("class", MarkdownClasses.UL)] inner_content, consumed)
      else
        (Node.elem "ul" [] inner_content, consumed)
  | Tag.Item =>
    let inner_content := render_events opts inner_events
    if use_explicit then
      (Node.elem "li" [("class", MarkdownClasses.LI)] inner_content, consumed)
    else
      (Node.elem "li" [] inner_content, consumed)
  | Tag.Emphasis =>
    let inner_content := render_events opts inner_events
    if use_explicit then
      (Node.elem "em" [("class", MarkdownClasses.EM)] inner_content, consumed)
    else
      (Node.elem "em" [] inner_content, consumed)
  | Tag.Strong =>
    let inner_content := render_events opts inner_events
    if use_explicit then
      (Node.elem "strong" [("class", MarkdownClasses.STRONG)] inner_content, consumed)
    else
      (Node.elem "strong" [] inner_content, consumed)
  | Tag.Strikethrough =>
    let inner_content := render_events opts inner_events
    if use_explicit then
      (Node.elem "del" [("class", MarkdownClasses.DEL)] inner_content, consumed)
    else
      (Node.elem "del" [] inner_content, consumed)
  | Tag.Link dest_url title =>
    let inner_content := render_events opts inner_events
    let href := dest_url
    let link_class := if use_explicit then MarkdownClasses.LINK else ""
    if !title.isEmpty then
      if opts.open_links_in_new_tab then
        (Node.elem "a"
          [("class", link_class), ("href", href), ("title", title),
           ("target", "_blank"), ("rel", "noopener noreferrer")] inner_content, consumed)
      else
        (Node.elem "a" [("class", link_class), ("href", href), ("title", title)]
          inner_content, consumed)
    else if opts.open_links_in_new_tab then
      (Node.elem "a"
        [("class", link_class), ("href", href),
         ("target", "_blank"), ("rel", "noopener noreferrer")] inner_content, consumed)
    else
      (Node.elem "a" [("class", link_class), ("href", href)] inner_content, consumed)
  | Tag.Image dest_url title =>
    let src := dest_url
    let alt := extract_text_content inner_events
    let img_class := if use_explicit then MarkdownClasses.IMAGE else "markdown-image"
    if !title.isEmpty then
      (Node.elem "img"
        [("src", src), ("alt", alt), ("title", title), ("class", img_class)] [], consumed)
    else
      (Node.elem "img" [("src", src), ("alt", alt), ("class", img_class)] [], consumed)
  | Tag.Table =>
    let inner_content := render_events opts inner_events
    let cls := if use_explicit then MarkdownClasses.TABLE else "markdown-table"
    (Node.elem "table" [("class", cls)] inner_content, consumed)
  | Tag.TableHead =>
    let inner_content := render_events opts inner_events
    if use_explicit then
      (Node.elem "thead" [("class", MarkdownClasses.THEAD)] inner_content, consumed)
    else
      (Node.elem "thead" [] inner_content, consumed)
  | Tag.TableRow =>
    let inner_content := render_events opts inner_events
    if use_explicit then
      (Node.elem "tr" [("class", MarkdownClasses.TR)] inner_content, consumed)
    else
      (Node.elem "tr" [] inner_content, consumed)
  | Tag.TableCell =>
    let inner_content := render_events opts inner_events
    if use_explicit then
      (Node.elem "td" [("class", MarkdownClasses.TD)] inner_content, consumed)
    else
      (Node.elem "td" [] inner_content, consumed)
  | Tag.FootnoteDefinition label =>
    let inner_content := render_events opts inner_events
    let cls := if use_explicit then MarkdownClasses.FOOTNOTE_DEF else "footnote-definition"
    (Node.elem "div" [("class", cls), ("id", label)] inner_content, consumed)
  | Tag.HtmlBlock =>
    let raw_html := extract_text_content inner_events
    if opts.allow_raw_html then
      (Node.rawElem "div" [] raw_html, consumed)
    else
      let cls := if use_explicit then MarkdownClasses.RAW_HTML_BLOCK else "raw-html-block"
      (Node.elem "pre" [("class", cls)] [Node.text raw_html], consumed)
  | Tag.DefinitionList =>
    let inner_content := render_events opts inner_events
    if use_explicit then
      (Node.elem "dl" [("class", MarkdownClasses.DL)] inner_content, consumed)
    else
      (Node.elem "dl" [] inner_content, consumed)
  | Tag.DefinitionListTitle =>
    let inner_content := render_events opts inner_events
    if use_explicit then
      (Node.elem "dt" [("class", MarkdownClasses.DT)] inner_content, consumed)
    else
      (Node.elem "dt" [] inner_content, consumed)
  | Tag.DefinitionListDefinition =>
    let inner_content := render_events opts inner_events
    if use_explicit then
      (Node.elem "dd" [("class", MarkdownClasses.DD)] inner_content, consumed)
    else
      (Node.elem "dd" [] inner_content, consumed)
  | Tag.Superscript =>
    let inner_content := render_events opts inner_events
    if use_explicit then
      (Node.elem "sup" [("class", MarkdownClasses.SUP)] inner_content, consumed)
    else
      (Node.elem "sup" [] inner_content, consumed)
  | Tag.Subscript =>
    let inner_content := render_events opts inner_events
    if use_explicit then
      (Node.elem "sub" [("class", MarkdownClasses.SUB)] inner_content, consumed)
    else
      (Node.elem "sub" [] inner_content, consumed)
  | Tag.MetadataBlock =>
    -- Metadata blocks are ignored by the source
    (Node.text "", consumed)
termination_by (inner_events.length, 4)
decreasing_by
  all_goals simp_wf
  all_goals try simp only [List.length_drop, List.length_take, List.length_cons]
  all_goals first
    | (apply Prod.Lex.right; omega)
    | (apply Prod.Lex.left; omega)

end

/-- Depth change contributed by one event in the `find_matching_end` scan:
`+1` on a `Start`, `-1` on an `End`, `0` otherwise. -/
def event_delta : Event → Int
  | Event.Start _ => 1
  | Event.End => -1
  | _ => 0

/-- Nesting depth after consuming the first `k` events of the stream
(the running depth of the bracket-matching scan, spec §4.2 step 3). -/
def depth_after (events : List Event) (k : Nat) : Int :=
  ((events.take k).map event_delta).sum

/-- A well-nested event sub-stream: the depth delta over the whole stream
is zero and no prefix has negative depth delta. -/
def balanced (l : List Event) : Prop :=
  depth_after l l.length = 0 ∧ ∀ k, k ≤ l.length → 0 ≤ depth_after l k

instance (l : List Event) : Decidable (balanced l) := by
  unfold balanced; infer_instance

/-- Attribute projection on an output node. -/
def getAttr (n : Node) (key : String) : Option String :=
  match n with
  | Node.text _ => none
  | Node.elem _ attrs _ => attrs.lookup key
  | Node.rawElem _ attrs _ => attrs.lookup key

/-- Attribute projection on the first child of an output node. -/
def firstChildAttr (n : Node) (key : String) : Option String :=
  match n with
  | Node.elem _ _ (c :: _) => getAttr c key
  | _ => none

/-- `token` occurs as a substring of `s`. -/
def contains_token (s token : String) : Prop :=
  ∃ a b, s = a ++ token ++ b

/-- Spec-side definition, for comparison with `extract_text_content` only
(spec §4.4 HtmlBlock row and §8: "content is the literal text
concatenation", "an HTML block's literal source text"): the literal
concatenation of the source text carried by the leaves of an HTML block,
which includes the payloads of `Html` leaves — the events pulldown-cmark
emits inside an `HtmlBlock` container. -/
def spec_block_source_text (events : List Event) : String :=
  String.join (events.map fun e =>
    match e with
    | Event.Text s => s
    | Event.Code s => s
    | Event.Html s => s
    | Event.InlineHtml s => s
    | _ => "")

/-! ## Helper lemmas -/

theorem depth_after_nil (k : Nat) : depth_after [] k = 0 := by
  simp [depth_after]

theorem depth_after_cons (e : Event) (l : List Event) (k : Nat) :
    depth_after (e :: l) (k + 1) = event_delta e + depth_after l k := by
  simp [depth_after, List.take_succ_cons]

/-- The scan never returns an index before its starting offset, the
consumed count is at least the end index, and neither ever exceeds the
offset plus the slice length: the scan cannot run past end-of-stream. -/
theorem find_matching_end_go_bounds (l : List Event) (i : Nat) (d : Int) :
    i ≤ (find_matching_end_go l i d).1 ∧
    (find_matching_end_go l i d).1 ≤ (find_matching_end_go l i d).2 ∧
    (find_matching_end_go l i d).2 ≤ i + l.length := by
  induction l generalizing i d with
  | nil => simp [find_matching_end_go]
  | cons e rest ih =>
    cases e
    case End =>
      by_cases h0 : d - 1 = 0
      · simp only [find_matching_end_go, if_pos h0, List.length_cons]
        omega
      · have h := ih (i + 1) (d - 1)
        simp only [find_matching_end_go, if_neg h0, List.length_cons]
        omega
    case Start tag =>
      have h := ih (i + 1) (d + 1)
      simp only [find_matching_end_go, List.length_cons]
      omega
    all_goals
      have h := ih (i + 1) d
      simp only [find_matching_end_go, List.length_cons]
      omega

theorem depth_after_zero (l : List Event) : depth_after l 0 = 0 := rfl

/-- While the running depth stays at least 1 over a prefix (so no `End`
inside it can bring the depth to zero), the scan passes over the whole
prefix without returning, advancing the index by its length and the depth
by its delta. -/
theorem find_matching_end_go_append (inner after : List Event) (i : Nat) (d : Int)
    (h : ∀ k, k ≤ inner.length → 1 ≤ d + depth_after inner k) :
    find_matching_end_go (inner ++ after) i d
      = find_matching_end_go after (i + inner.length) (d + depth_after inner inner.length) := by
  induction inner generalizing i d with
  | nil => simp [depth_after_nil]
  | cons e rest ih =>
    have h1 : 1 ≤ d + event_delta e := by
      have h' := h 1 (by simp)
      rwa [depth_after_cons, depth_after_zero, add_zero] at h'
    have hsub : ∀ k, k ≤ rest.length → 1 ≤ (d + event_delta e) + depth_after rest k := by
      intro k hk
      have h' := h (k + 1) (by simp; omega)
      rw [depth_after_cons] at h'
      omega
    cases e
    case Start tag =>
      simp only [List.cons_append, find_matching_end_go, List.length_cons,
        depth_after_cons, event_delta] at hsub ⊢
      have ex : i + (rest.length + 1) = (i + 1) + rest.length := by omega
      have ey : d + (1 + depth_after rest rest.length) = (d + 1) + depth_after rest rest.length := by
        omega
      rw [ex, ey]
      exact ih (i + 1) (d + 1) hsub
    case End =>
      simp only [event_delta] at h1
      have hne : ¬(d - 1 = 0) := by omega
      simp only [List.cons_append, find_matching_end_go, if_neg hne, List.length_cons,
        depth_after_cons, event_delta] at hsub ⊢
      have ex : i + (rest.length + 1) = (i + 1) + rest.length := by omega
      have ey : d + (-1 + depth_after rest rest.length) = (d - 1) + depth_after rest rest.length := by
        omega
      rw [ex, ey]
      exact ih (i + 1) (d - 1) hsub
    all_goals
      simp only [List.cons_append, find_matching_end_go, List.length_cons,
        depth_after_cons, event_delta] at hsub ⊢
      have ex : i + (rest.length + 1) = (i + 1) + rest.length := by omega
      have ey : d + (0 + depth_after rest rest.length) = d + depth_after rest rest.length := by
        omega
      rw [ex, ey]
      exact ih (i + 1) d (fun k hk => by have := hsub k hk; omega)

/-- If position `m` holds an `End` event, the depth delta up to and
including `m` cancels the starting depth, and no shorter nonempty prefix
does, then the scan stops exactly at `m`: it returns
`(end_index, consumed) = (i + m, i + m + 1)`. -/
theorem find_matching_end_go_first (l : List Event) (i : Nat) (d : Int) (m : Nat)
    (hm : m < l.length)
    (hend : l.get? m = some Event.End)
    (hz : d + depth_after l (m + 1) = 0)
    (hmin : ∀ k, 1 ≤ k → k ≤ m → d + depth_after l k ≠ 0) :
    find_matching_end_go l i d = (i + m, i + m + 1) := by
  induction l generalizing i d m with
  | nil => simp at hm
  | cons e rest ih =>
    cases m with
    | zero =>
      have he : e = Event.End := by
        simpa using hend
      subst he
      rw [depth_after_cons, depth_after_zero] at hz
      simp only [event_delta] at hz
      have h0 : d - 1 = 0 := by omega
      simp [find_matching_end_go, h0]
    | succ m' =>
      have hm' : m' < rest.length := by
        simpa using hm
      have hend' : rest.get? m' = some Event.End := by
        simpa using hend
      have h1 : d + event_delta e ≠ 0 := by
        have h' := hmin 1 (by omega) (by omega)
        rwa [depth_after_cons, depth_after_zero, add_zero] at h'
      have hz' : (d + event_delta e) + depth_after rest (m' + 1) = 0 := by
        rw [depth_after_cons] at hz
        omega
      have hmin' : ∀ k, 1 ≤ k → k ≤ m' → (d + event_delta e) + depth_after rest k ≠ 0 := by
        intro k hk1 hk2
        have h' := hmin (k + 1) (by omega) (by omega)
        rw [depth_after_cons] at h'
        omega
      cases e
      case Start tag =>
        simp only [event_delta] at hz' hmin'
        simp only [find_matching_end_go]
        rw [ih (i + 1) (d + 1) m' hm' hend' hz' hmin']
        simp only [Prod.mk.injEq]
        omega
      case End =>
        simp only [event_delta] at h1 hz' hmin'
        have hne : ¬(d - 1 = 0) := by omega
        simp only [find_matching_end_go, if_neg hne]
        rw [ih (i + 1) (d - 1) m' hm' hend' (by omega)
          (by intro k hk1 hk2; have := hmin' k hk1 hk2; omega)]
        simp only [Prod.mk.injEq]
        omega
      all_goals
        simp only [event_delta] at h1 hz' hmin'
        simp only [find_matching_end_go]
        rw [ih (i + 1) d m' hm' hend' (by omega)
          (by intro k hk1 hk2; have := hmin' k hk1 hk2; omega)]
        simp only [Prod.mk.injEq]
        omega

/-- The scan result never exceeds the slice length: the renderer never
indexes past the end of the event sequence. -/
theorem find_matching_end_le (l : List Event) :
    (find_matching_end l).1 ≤ l.length ∧ (find_matching_end l).2 ≤ l.length := by
  have h := find_matching_end_go_bounds l 0 0
  simp only [find_matching_end]
  omega

/-- Every branch of the per-kind emission returns the `consumed` count it
was given as its second component. -/
theorem render_matched_tag_consumed (opts : MarkdownOptions) (tag : Tag)
    (inner : List Event) (c : Nat) :
    (render_matched_tag opts tag inner c).2 = c := by
  rw [render_matched_tag.eq_def]
  cases tag <;> dsimp only <;> (repeat' split) <;> rfl

/-- Unfolding of `render_start_tag`: the children slice is the events
strictly between the `Start` and the scan's end index, and the cursor
advance is the scan's consumed count. -/
theorem render_start_tag_def (opts : MarkdownOptions) (tag : Tag) (rest : List Event) :
    render_start_tag opts tag rest
      = render_matched_tag opts tag
          (((Event.Start tag :: rest).take (find_matching_end (Event.Start tag :: rest)).1).drop 1)
          (find_matching_end (Event.Start tag :: rest)).2 := by
  rw [render_start_tag]

/-- Unfolding of the cursor loop `render_events` on a non-empty stream. -/
theorem render_events_cons (opts : MarkdownOptions) (e : Event) (rest : List Event) :
    render_events opts (e :: rest)
      = (render_event opts e rest).1
        :: render_events opts (rest.drop ((render_event opts e rest).2 - 1)) := by
  rw [render_events]

/-- Every dispatch of `render_event` consumes at least one event. -/
theorem render_event_consumes_at_least_one (opts : MarkdownOptions) (e : Event)
    (rest : List Event) :
    1 ≤ (render_event opts e rest).2 := by
  cases e
  case Start tag =>
    simp only [render_event, render_start_tag_def, render_matched_tag_consumed]
    have h : find_matching_end (Event.Start tag :: rest) = find_matching_end_go rest 1 1 := by
      simp [find_matching_end, find_matching_end_go]
    rw [h]
    have hb := find_matching_end_go_bounds rest 1 1
    omega
  all_goals simp only [render_event]
  all_goals (repeat' split) <;> simp

/-! ## Claim theorems -/

/-- C7: the theme-style lookup `get_code_theme_classes` maps each of the
five presets (Default, Dark, Light, GitHub, Monokai) to a non-empty token,
and the five resulting tokens are pairwise distinct strings. -/
theorem c7_theme_classes_nonempty_and_injective :
    (∀ t : CodeBlockTheme, get_code_theme_classes t ≠ "") ∧
    (∀ t₁ t₂ : CodeBlockTheme,
      get_code_theme_classes t₁ = get_code_theme_classes t₂ → t₁ = t₂) := by
  constructor
  · intro t
    cases t <;> decide
  · intro t₁ t₂ h
    cases t₁ <;> cases t₂ <;> first
      | rfl
      | exact absurd h (by decide)

/-- C8: a block-level `Html` leaf renders the same for every options
value — in particular identically for `allow_raw_html = true` and
`allow_raw_html = false` — always as literal text inside a span with
class `"raw-html"`, never as raw injected markup. -/
theorem c8_block_html_leaf_always_escaped (opts : MarkdownOptions) (s : String)
    (rest : List Event) :
    render_event opts (Event.Html s) rest
      = (Node.elem "span" [("class", "raw-html")] [Node.text s], 1) ∧
    render_event { opts with allow_raw_html := true } (Event.Html s) rest
      = render_event { opts with allow_raw_html := false } (Event.Html s) rest := by
  constructor <;> simp [render_event]

/-- C9: the default configuration (`MarkdownOptions::default`, also
returned by `MarkdownOptions::new`) enables GFM, sets the Default code
theme, emits language classes, opens links in new tabs, allows raw HTML,
and does not use explicit classes. -/
theorem c9_default_options_values :
    MarkdownOptions.defaultOptions.enable_gfm = true ∧
    MarkdownOptions.defaultOptions.code_theme = some CodeBlockTheme.Default ∧
    MarkdownOptions.defaultOptions.syntax_highlighting_language_classes = true ∧
    MarkdownOptions.defaultOptions.open_links_in_new_tab = true ∧
    MarkdownOptions.defaultOptions.allow_raw_html = true ∧
    MarkdownOptions.defaultOptions.use_explicit_classes = false ∧
    MarkdownOptions.new = MarkdownOptions.defaultOptions :=
  ⟨rfl, rfl, rfl, rfl, rfl, rfl, rfl⟩

/-- C10: a stray `End` event (one with no preceding `Start`) renders as
the empty view and consumes exactly one event, so streams containing
stray `End` events still render and every dispatch step consumes at
least one event. -/
theorem c10_stray_end_consumes_exactly_one (opts : MarkdownOptions) (rest : List Event) :
    render_event opts Event.End rest = (Node.text "", 1) ∧
    render_events opts (Event.End :: rest) = Node.text "" :: render_events opts rest ∧
    (∀ (e : Event) (r : List Event), 1 ≤ (render_event opts e r).2) := by
  refine ⟨by simp [render_event], ?_, fun e r => render_event_consumes_at_least_one opts e r⟩
  rw [render_events_cons]
  simp [render_event]

/-- C2: on a malformed stream whose opening `Start` has no matching `End`
before end-of-stream (the scan's end index equals the stream length), the
matching end is taken to be end-of-stream: the children slice is the
entire remaining stream, the whole stream is consumed, rendering returns
exactly the one container node, and — unconditionally — the scan result
never exceeds the sequence length, so no index past the end is accessed. -/
theorem c2_unmatched_start_consumes_all (opts : MarkdownOptions)
    (tag : Tag) (rest : List Event)
    (h : (find_matching_end (Event.Start tag :: rest)).1 = rest.length + 1) :
    (find_matching_end (Event.Start tag :: rest)).2 = rest.length + 1 ∧
    ((Event.Start tag :: rest).take (find_matching_end (Event.Start tag :: rest)).1).drop 1
      = rest ∧
    render_events opts (Event.Start tag :: rest) = [(render_start_tag opts tag rest).1] ∧
    (∀ l : List Event, (find_matching_end l).1 ≤ l.length ∧ (find_matching_end l).2 ≤ l.length) := by
  have hle := find_matching_end_le (Event.Start tag :: rest)
  have hb := find_matching_end_go_bounds (Event.Start tag :: rest) 0 0
  have h12 : (find_matching_end (Event.Start tag :: rest)).1
      ≤ (find_matching_end (Event.Start tag :: rest)).2 := by
    simpa [find_matching_end] using hb.2.1
  have hlen : (Event.Start tag :: rest).length = rest.length + 1 := by simp
  have h2 : (find_matching_end (Event.Start tag :: rest)).2 = rest.length + 1 := by
    have := hle.2
    omega
  refine ⟨h2, ?_, ?_, fun l => find_matching_end_le l⟩
  · rw [h]
    rw [List.take_of_length_le (by simp)]
    simp
  · rw [render_events_cons]
    have he : render_event opts (Event.Start tag) rest = render_start_tag opts tag rest := by
      simp [render_event]
    have hc : (render_start_tag opts tag rest).2 = rest.length + 1 := by
      rw [render_start_tag_def, render_matched_tag_consumed]
      exact h2
    rw [he, hc]
    simp [List.drop_length, render_events]

/-- Witness for C2 at a concrete truncated stream: a `Paragraph` whose
`End` is missing. -/
theorem c2_unmatched_start_consumes_all_witness :
    (find_matching_end [Event.Start Tag.Paragraph, Event.Text "a"]).2 = 2 ∧
    (([Event.Start Tag.Paragraph, Event.Text "a"]).take
        (find_matching_end [Event.Start Tag.Paragraph, Event.Text "a"]).1).drop 1
      = [Event.Text "a"] ∧
    render_events MarkdownOptions.defaultOptions [Event.Start Tag.Paragraph, Event.Text "a"]
      = [(render_start_tag MarkdownOptions.defaultOptions Tag.Paragraph [Event.Text "a"]).1] ∧
    (∀ l : List Event, (find_matching_end l).1 ≤ l.length ∧ (find_matching_end l).2 ≤ l.length) :=
  c2_unmatched_start_consumes_all MarkdownOptions.defaultOptions Tag.Paragraph
    [Event.Text "a"] (by decide)

/-- C3: on a well-nested stream beginning with a `Start`, if position `m`
holds the `End` event at which the scan depth first returns to zero, then
the bracket-matching scan returns exactly `(m, m + 1)`, and the container
is rendered from the sub-sequence strictly between the `Start` (index 0)
and that `End` (index `m`), exclusive of both. -/
theorem c3_well_nested_match_and_children (opts : MarkdownOptions) (tag : Tag)
    (rest : List Event) (m : Nat)
    (hm : m < (Event.Start tag :: rest).length)
    (hend : (Event.Start tag :: rest).get? m = some Event.End)
    (hz : depth_after (Event.Start tag :: rest) (m + 1) = 0)
    (hfirst : ∀ k, 1 ≤ k → k ≤ m → depth_after (Event.Start tag :: rest) k ≠ 0) :
    find_matching_end (Event.Start tag :: rest) = (m, m + 1) ∧
    render_start_tag opts tag rest
      = render_matched_tag opts tag (((Event.Start tag :: rest).take m).drop 1) (m + 1) := by
  have h1 : find_matching_end (Event.Start tag :: rest) = (m, m + 1) := by
    have hgo := find_matching_end_go_first (Event.Start tag :: rest) 0 0 m hm hend
      (by simpa using hz) (by intro k hk1 hk2; simpa using hfirst k hk1 hk2)
    simpa [find_matching_end] using hgo
  refine ⟨h1, ?_⟩
  rw [render_start_tag_def, h1]

/-- Witness for C3 at a concrete well-nested stream:
`<em>` containing a text leaf, whose matching `End` is at position 2. -/
theorem c3_well_nested_match_and_children_witness :
    find_matching_end [Event.Start Tag.Emphasis, Event.Text "x", Event.End] = (2, 3) ∧
    render_start_tag MarkdownOptions.defaultOptions Tag.Emphasis [Event.Text "x", Event.End]
      = render_matched_tag MarkdownOptions.defaultOptions Tag.Emphasis
          (([Event.Start Tag.Emphasis, Event.Text "x", Event.End].take 2).drop 1) 3 :=
  c3_well_nested_match_and_children MarkdownOptions.defaultOptions Tag.Emphasis
    [Event.Text "x", Event.End] 2 (by decide) (by decide) (by decide)
    (fun k hk1 hk2 => by interval_cases k <;> decide)

/-- C6: a `MetadataBlock` whose interior `inner` is well nested emits the
empty view (`Node.text ""` — no markup node) and the cursor advances past
every interior event of the subtree: the events `after` the block's `End`
render exactly as if the block were absent. -/
theorem c6_metadata_block_discarded_cursor_advances (opts : MarkdownOptions)
    (inner after : List Event) (hb : balanced inner) :
    render_events opts (Event.Start Tag.MetadataBlock :: (inner ++ Event.End :: after))
      = Node.text "" :: render_events opts after := by
  obtain ⟨hbal, hpre⟩ := hb
  have hfm : find_matching_end (Event.Start Tag.MetadataBlock :: (inner ++ Event.End :: after))
      = (inner.length + 1, inner.length + 2) := by
    have hskip := find_matching_end_go_append inner (Event.End :: after) 1 1
      (by intro k hk; have := hpre k hk; omega)
    simp only [find_matching_end, find_matching_end_go, Nat.zero_add, zero_add]
    rw [hskip, hbal]
    norm_num [find_matching_end_go]
    omega
  rw [render_events_cons]
  have he : render_event opts (Event.Start Tag.MetadataBlock) (inner ++ Event.End :: after)
      = (Node.text "", inner.length + 2) := by
    simp only [render_event, render_start_tag_def, hfm]
    rw [render_matched_tag.eq_def]
  rw [he]
  have hd : (inner ++ Event.End :: after).drop ((Node.text "", inner.length + 2).2 - 1)
      = after := by
    have h21 : (Node.text "", inner.length + 2).2 - 1 = inner.length + 1 := rfl
    rw [h21]
    simp [List.drop_append]
  rw [hd]

/-- Witness for C6: a metadata block containing a paragraph subtree,
followed by a sibling text event. -/
theorem c6_metadata_block_discarded_cursor_advances_witness :
    render_events MarkdownOptions.defaultOptions
        (Event.Start Tag.MetadataBlock ::
          ([Event.Start Tag.Paragraph, Event.Text "t", Event.End]
            ++ Event.End :: [Event.Text "next"]))
      = Node.text "" :: render_events MarkdownOptions.defaultOptions [Event.Text "next"] :=
  c6_metadata_block_discarded_cursor_advances MarkdownOptions.defaultOptions
    [Event.Start Tag.Paragraph, Event.Text "t", Event.End] [Event.Text "next"] (by decide)

/-- C5: the anchor node of a `Link` container carries `href` equal to the
link's url; `title` is present iff the title string is non-empty; and
`target="_blank"` and `rel="noopener noreferrer"` are present iff
`open_links_in_new_tab` is true. -/
theorem c5_link_attributes (opts : MarkdownOptions) (url title : String)
    (rest : List Event) :
    getAttr (render_start_tag opts (Tag.Link url title) rest).1 "href" = some url ∧
    getAttr (render_start_tag opts (Tag.Link url title) rest).1 "title"
      = (if title.isEmpty then none else some title) ∧
    getAttr (render_start_tag opts (Tag.Link url title) rest).1 "target"
      = (if opts.open_links_in_new_tab then some "_blank" else none) ∧
    getAttr (render_start_tag opts (Tag.Link url title) rest).1 "rel"
      = (if opts.open_links_in_new_tab then some "noopener noreferrer" else none) := by
  rw [render_start_tag_def, render_matched_tag.eq_def]
  cases ht : title.isEmpty <;> cases ho : opts.open_links_in_new_tab <;>
    simp [getAttr, List.lookup, ht, ho]

/-- C4: with `syntax_highlighting_language_classes` enabled, a fenced code
block with language `"rust"` carries a class containing `language-rust` on
both the `pre` wrapper and the `code` content node; with an empty language
string, or an indented block, both carry the generic `language-text`
fallback; and when `code_theme` is set its theme token is additionally
appended to the `pre` node's class. -/
theorem c4_code_block_language_and_theme_classes (opts : MarkdownOptions) (rest : List Event)
    (h : opts.syntax_highlighting_language_classes = true) :
    (∃ a b, getAttr (render_start_tag opts
        (Tag.CodeBlock (CodeBlockKind.Fenced "rust")) rest).1 "class"
        = some (a ++ "language-rust" ++ b)) ∧
    (∃ a b, firstChildAttr (render_start_tag opts
        (Tag.CodeBlock (CodeBlockKind.Fenced "rust")) rest).1 "class"
        = some (a ++ "language-rust" ++ b)) ∧
    (∃ a b, getAttr (render_start_tag opts
        (Tag.CodeBlock (CodeBlockKind.Fenced "")) rest).1 "class"
        = some (a ++ "language-text" ++ b)) ∧
    (∃ a b, firstChildAttr (render_start_tag opts
        (Tag.CodeBlock (CodeBlockKind.Fenced "")) rest).1 "class"
        = some (a ++ "language-text" ++ b)) ∧
    (∃ a b, getAttr (render_start_tag opts
        (Tag.CodeBlock CodeBlockKind.Indented) rest).1 "class"
        = some (a ++ "language-text" ++ b)) ∧
    (∃ a b, firstChildAttr (render_start_tag opts
        (Tag.CodeBlock CodeBlockKind.Indented) rest).1 "class"
        = some (a ++ "language-text" ++ b)) ∧
    (∀ t, opts.code_theme = some t →
      ∃ a, getAttr (render_start_tag opts
        (Tag.CodeBlock (CodeBlockKind.Fenced "rust")) rest).1 "class"
        = some (a ++ (" " ++ get_code_theme_classes t))) := by
  obtain ⟨gfm, theme, synh, newtab, raw, explicit⟩ := opts
  replace h : synh = true := h
  subst h
  simp only [render_start_tag_def, render_matched_tag.eq_def]
  dsimp only
  rcases theme with _ | t
  · cases explicit
    · simp [getAttr, firstChildAttr, List.lookup,
        show "rust".isEmpty = false from rfl, show "".isEmpty = true from rfl]
      exact ⟨⟨"markdown-code-block ", "", by decide⟩, ⟨"", "", by decide⟩,
        ⟨"markdown-code-block ", "", by decide⟩, ⟨"", "", by decide⟩,
        ⟨"markdown-code-block ", "", by decide⟩, ⟨"", "", by decide⟩⟩
    · simp [getAttr, firstChildAttr, List.lookup, MarkdownClasses.CODE_BLOCK,
        MarkdownClasses.CODE_BLOCK_CODE,
        show "rust".isEmpty = false from rfl, show "".isEmpty = true from rfl]
      exact ⟨⟨MarkdownClasses.CODE_BLOCK ++ " ", "", by decide⟩,
        ⟨MarkdownClasses.CODE_BLOCK_CODE ++ " ", "", by decide⟩,
        ⟨MarkdownClasses.CODE_BLOCK ++ " ", "", by decide⟩,
        ⟨MarkdownClasses.CODE_BLOCK_CODE ++ " ", "", by decide⟩,
        ⟨MarkdownClasses.CODE_BLOCK ++ " ", "", by decide⟩,
        ⟨MarkdownClasses.CODE_BLOCK_CODE ++ " ", "", by decide⟩⟩
  · cases explicit
    · simp [getAttr, firstChildAttr, List.lookup,
        show "rust".isEmpty = false from rfl, show "".isEmpty = true from rfl]
      exact ⟨⟨"markdown-code-block ", " " ++ get_code_theme_classes t, by
          rw [← String.append_assoc]; congr 1⟩,
        ⟨"", "", by decide⟩,
        ⟨"markdown-code-block ", " " ++ get_code_theme_classes t, by
          rw [← String.append_assoc]; congr 1⟩,
        ⟨"", "", by decide⟩,
        ⟨"markdown-code-block ", " " ++ get_code_theme_classes t, by
          rw [← String.append_assoc]; congr 1⟩,
        ⟨"", "", by decide⟩,
        ⟨"markdown-code-block language-rust", by
          rw [← String.append_assoc]; congr 1⟩⟩
    · simp [getAttr, firstChildAttr, List.lookup, MarkdownClasses.CODE_BLOCK,
        MarkdownClasses.CODE_BLOCK_CODE,
        show "rust".isEmpty = false from rfl, show "".isEmpty = true from rfl]
      exact ⟨⟨MarkdownClasses.CODE_BLOCK ++ " ", " " ++ get_code_theme_classes t, by
          rw [← String.append_assoc]; congr 1⟩,
        ⟨MarkdownClasses.CODE_BLOCK_CODE ++ " ", "", by decide⟩,
        ⟨MarkdownClasses.CODE_BLOCK ++ " ", " " ++ get_code_theme_classes t, by
          rw [← String.append_assoc]; congr 1⟩,
        ⟨MarkdownClasses.CODE_BLOCK_CODE ++ " ", "", by decide⟩,
        ⟨MarkdownClasses.CODE_BLOCK ++ " ", " " ++ get_code_theme_classes t, by
          rw [← String.append_assoc]; congr 1⟩,
        ⟨MarkdownClasses.CODE_BLOCK_CODE ++ " ", "", by decide⟩,
        ⟨MarkdownClasses.CODE_BLOCK ++ " language-rust", by
          rw [← String.append_assoc]; congr 1⟩⟩

/-- Witness for C4 at the default options (language classes enabled,
Default theme set) and the empty interior. -/
theorem c4_code_block_language_and_theme_classes_witness :
    (∃ a b, getAttr (render_start_tag MarkdownOptions.defaultOptions
        (Tag.CodeBlock (CodeBlockKind.Fenced "rust")) []).1 "class"
        = some (a ++ "language-rust" ++ b)) ∧
    (∃ a b, firstChildAttr (render_start_tag MarkdownOptions.defaultOptions
        (Tag.CodeBlock (CodeBlockKind.Fenced "rust")) []).1 "class"
        = some (a ++ "language-rust" ++ b)) ∧
    (∃ a b, getAttr (render_start_tag MarkdownOptions.defaultOptions
        (Tag.CodeBlock (CodeBlockKind.Fenced "")) []).1 "class"
        = some (a ++ "language-text" ++ b)) ∧
    (∃ a b, firstChildAttr (render_start_tag MarkdownOptions.defaultOptions
        (Tag.CodeBlock (CodeBlockKind.Fenced "")) []).1 "class"
        = some (a ++ "language-text" ++ b)) ∧
    (∃ a b, getAttr (render_start_tag MarkdownOptions.defaultOptions
        (Tag.CodeBlock CodeBlockKind.Indented) []).1 "class"
        = some (a ++ "language-text" ++ b)) ∧
    (∃ a b, firstChildAttr (render_start_tag MarkdownOptions.defaultOptions
        (Tag.CodeBlock CodeBlockKind.Indented) []).1 "class"
        = some (a ++ "language-text" ++ b)) ∧
    (∀ t, MarkdownOptions.defaultOptions.code_theme = some t →
      ∃ a, getAttr (render_start_tag MarkdownOptions.defaultOptions
        (Tag.CodeBlock (CodeBlockKind.Fenced "rust")) []).1 "class"
        = some (a ++ (" " ++ get_code_theme_classes t))) :=
  c4_code_block_language_and_theme_classes MarkdownOptions.defaultOptions [] rfl

/-- C1 (code-bug evidence): for an `HtmlBlock` whose interior is an `Html`
leaf — the event pulldown-cmark emits inside every HTML block — the
renderer drops the block's source text in BOTH `allow_raw_html` modes:
`extract_text_content` keeps only `Text`/`Code` leaves, so the block
renders as a preformatted element containing the empty string (raw HTML
disabled) or as a `div` whose injected raw markup is the empty string
(raw HTML enabled), while the literal source text of the block
(`spec_block_source_text`) is `"<b>hi</b>"`. The claim — that the block's
source text is rendered escaped or injected and never silently dropped —
fails on this input. -/
theorem c1_html_block_drops_html_leaf_content :
    extract_text_content [Event.Html "<b>hi</b>"] = "" ∧
    spec_block_source_text [Event.Html "<b>hi</b>"] = "<b>hi</b>" ∧
    render_events { MarkdownOptions.defaultOptions with allow_raw_html := false }
        [Event.Start Tag.HtmlBlock, Event.Html "<b>hi</b>", Event.End]
      = [Node.elem "pre" [("class", "raw-html-block")] [Node.text ""]] ∧
    render_events MarkdownOptions.defaultOptions
        [Event.Start Tag.HtmlBlock, Event.Html "<b>hi</b>", Event.End]
      = [Node.rawElem "div" [] ""] := by
  refine ⟨by decide, by decide, ?_, ?_⟩ <;>
    simp [render_events, render_event, render_start_tag_def, render_matched_tag.eq_def,
      find_matching_end, find_matching_end_go, extract_text_content,
      MarkdownOptions.defaultOptions] <;>
    rfl

end LeptosMd
